/-
Verification of the spiderfire cancellable HTTP fetch pipeline:
the abort-signal model (src/runtime/src/globals/abort.rs),
the fetch Request entity (src/runtime/src/globals/fetch/request/mod.rs),
and the redirect-following dispatcher (src/modules/src/http/network.rs),
shallowly embedded in Lean 4 and checked against the specification.
-/
import Mathlib

namespace Abort

/-- Opaque script values (`JSVal`).  The runtime only ever constructs null
values, error objects (with a message) and passes caller reasons through
unchanged, so an inductive with these shapes is a faithful value model. -/
inductive JSVal
  | null
  | err (msg : String)
  | val (n : Int)
  deriving DecidableEq, Repr

/-- The `Signal` from abort.rs: `None`, `Abort(JSVal)`, `Receiver(Receiver<...>)`,
`Timeout(Receiver<...>, Arc<AtomicBool>)`.  The `Receiver`/`Timeout` variants
subscribe to a shared broadcast cell; the cell's current contents and the
termination flag are shared mutable state, threaded explicitly through the
functions below as `cell : Option JSVal` and `terminate : Bool`. -/
inductive Signal
  | noSignal
  | abortSignal (reason : JSVal)
  | receiver
  | timeout
  deriving DecidableEq, Repr

/-- Outcome of one `Future::poll` call. -/
inductive Poll (α : Type)
  | ready (a : α)
  | pending
  deriving DecidableEq, Repr

/-- The `SignalFuture::poll`: `None` is permanently pending, `Abort` is immediately
ready with its reason, and the `Receiver`/`Timeout` variants are ready exactly
when the shared broadcast cell holds a reason (first `borrow`, or the
`changed()` re-check, both read the same cell state). -/
def SignalFuture.poll (s : Signal) (cell : Option JSVal) : Poll JSVal :=
  match s with
  | .noSignal => .pending
  | .abortSignal reason => .ready reason
  | .receiver | .timeout =>
    match cell with
    | some reason => .ready reason
    | none => .pending

/-- The `Drop for SignalFuture`: dropping a `Timeout` future whose cell has not
fired stores `true` into the termination flag; every other case leaves the
flag unchanged.  Returns the new flag value. -/
def SignalFuture.drop (s : Signal) (cell : Option JSVal) (terminate : Bool) : Bool :=
  match s with
  | .timeout => if cell = none then true else terminate
  | _ => terminate

/-- The `AbortSignal::get_reason`: `None` has no reason, `Abort` carries its own,
`Receiver`/`Timeout` read the shared cell. -/
def AbortSignal.get_reason (s : Signal) (cell : Option JSVal) : Option JSVal :=
  match s with
  | .noSignal => none
  | .abortSignal reason => some reason
  | .receiver | .timeout => cell

/-- The `AbortSignal::get_aborted`: whether `get_reason` is `Some`. -/
def AbortSignal.get_aborted (s : Signal) (cell : Option JSVal) : Bool :=
  (AbortSignal.get_reason s cell).isSome

/-- The default abort reason built when the caller passes no reason:
`Error::new("AbortError", None)` converted to a script value. -/
def defaultAbortReason : JSVal := .err "AbortError"

/-- The `AbortController::abort`: resolves the reason (defaulting to an
`AbortError` value) and performs `sender.send_replace(Some(reason))` on the
shared broadcast cell.  `send_replace` stores unconditionally; the function
returns the cell's new contents. -/
def AbortController.abort (_cell : Option JSVal) (reason : Option JSVal) : Option JSVal :=
  some (reason.getD defaultAbortReason)

/-- The `AbortSignal::abort` (static): returns a signal settled immediately with
the caller's reason (defaulting to an `AbortError` value). -/
def AbortSignal.abort (reason : Option JSVal) : Signal :=
  .abortSignal (reason.getD defaultAbortReason)

/-- The timeout reason built by the scheduled callback:
`Error::new(&format!("Timeout Error: \x7b\x7dms", time), None)`. -/
def timeoutReason (time : Nat) : JSVal :=
  .err ("Timeout Error: " ++ toString time ++ "ms")

/-- State shared between a timeout signal and its scheduled callback: the
broadcast cell and the termination flag. -/
structure TimeoutState where
  cell : Option JSVal
  terminate : Bool
  deriving DecidableEq, Repr

/-- The `AbortSignal::timeout`: fresh cell holding no reason, termination flag
initially `false`; the returned handle is the `Timeout` signal variant. -/
def AbortSignal.timeoutInit : TimeoutState := ⟨none, false⟩

/-- Modelled from the spec: the event-loop execution of the scheduled
`SignalMacrotask` (`src/runtime/src/event_loop/macrotasks.rs` is not part of
the provided sources).  Per §4.2, when the callback runs: if the termination
flag is suppressed it does nothing; otherwise it computes the timeout reason
(carrying the configured duration) and broadcasts it to the cell — which is
exactly what the closure built in `AbortSignal::timeout` does via
`sender.send_replace`. -/
def runSignalMacrotask (time : Nat) (st : TimeoutState) : TimeoutState :=
  if st.terminate then st
  else { st with cell := some (timeoutReason time) }

/-- Dropping the timeout signal's future updates the shared termination flag
through `SignalFuture.drop`. -/
def dropTimeoutHandle (st : TimeoutState) : TimeoutState :=
  { st with terminate := SignalFuture.drop .timeout st.cell st.terminate }

end Abort

namespace Http

/-- A parsed URL (`url::Url`).  Only the pieces the embedded code inspects are
modelled: the serialised form, the host (for the `Host` header) and the
embedded credentials (for the constructor's check). -/
structure Url where
  toStr : String
  host : String := ""
  username : String := ""
  password : Option String := none
  deriving DecidableEq, Repr

/-- The `http::Method`.  The code compares against `GET`, `HEAD`, `POST`,
`CONNECT` and `TRACE`; every other method is carried as its name. -/
inductive Method
  | GET
  | HEAD
  | POST
  | CONNECT
  | TRACE
  | other (s : String)
  deriving DecidableEq, Repr

/-- A header multimap (`http::HeaderMap`): case-insensitive keys are modelled
as already-lowercased strings; order preserved, duplicates allowed. -/
abbrev Headers := List (String × String)

/-- The `HeaderMap::remove`: drop every entry with the given name. -/
def removeHeader (headers : Headers) (name : String) : Headers :=
  headers.filter (fun p => p.1 ≠ name)

/-- The `Redirection` (modules' redirect policy): `Follow`, `Error`, `Manual`. -/
inductive Redirection
  | follow
  | redirectError
  | manual
  deriving DecidableEq, Repr

/-- The inner `hyper::Request` head: method, target URI, headers.  (The hyper
body is rebuilt from the `body` bytes before each send and never read back,
so it is not tracked separately.) -/
structure HyperRequest where
  method : Method
  uri : Url
  headers : Headers
  deriving DecidableEq, Repr

/-- The `modules::http::Request` as used by `request_internal`: the hyper request
head, the canonical byte body (`Bytes`), the request URL and the redirect
policy.  (The HTTP client handle is external and not modelled.) -/
structure Request where
  request : HyperRequest
  body : List Nat
  url : Url
  redirection : Redirection
  deriving DecidableEq, Repr

/-- A transport response as consulted by the dispatcher: its status code and
its `Location` header.  `location = some url` stands for a present `Location`
header whose value parses and resolves (against the current base) to `url`;
`none` stands for an absent header.  URL resolution itself is performed by the
external `url` crate and is abstracted into the already-resolved value. -/
structure HyperResponse where
  status : Nat
  location : Option Url := none
  deriving DecidableEq, Repr

/-- The `modules::http::Response::new(response, redirections, locations)`. -/
structure Response where
  response : HyperResponse
  redirections : Nat
  locations : List Url
  deriving DecidableEq, Repr

/-- The dispatcher's terminal errors: `"Too Many Redirects"`,
`"Redirected with a Body"`, `"Received Redirection"`, and transport-level
failure of `client.request` (in the scripted-response model below, running
out of scripted responses). -/
inductive FetchError
  | tooManyRedirects
  | redirectedWithBody
  | receivedRedirection
  | transport
  deriving DecidableEq, Repr

/-- The `StatusCode::is_redirection`: any 3xx status. -/
def isRedirection (status : Nat) : Bool :=
  300 ≤ status && status < 400

/-- Modelled from the spec: `add_host_header` lives in modules'
`http/request.rs`, which is not among the provided sources.  Per §4.3 the
`Host` header is recomputed from the new target URI after every hop, so the
model prepends a `host` entry derived from the URL. -/
def add_host_header (headers : Headers) (url : Url) : Headers :=
  ("host", url.host) :: headers

/-- One `Redirecting → Sending` transition of `request_internal` under policy
`Follow`, given the upstream status and the resolved `Location` URL: the
301/302-on-POST and 303-on-non-GET/HEAD downgrade (method to GET, body
dropped, `Content-Encoding`/`Content-Language`/`Content-Location`/
`Content-Type` stripped), then `Host` recomputation and retargeting of the
URI. -/
def followHop (request : Request) (status : Nat) (url : Url) : Request :=
  let method := request.request.method
  let request :=
    if ((status = 301 ∨ status = 302) ∧ method = .POST)
        ∨ (status = 303 ∧ (method ≠ .GET ∧ method ≠ .HEAD)) then
      { request with
        request := { request.request with
          method := .GET
          headers := removeHeader (removeHeader (removeHeader (removeHeader
            request.request.headers "content-encoding") "content-language")
            "content-location") "content-type" }
        body := [] }
    else request
  let headers := add_host_header (removeHeader request.request.headers "host") url
  { request with request := { request.request with headers := headers, uri := url } }

/-- The request state after following a list of `(status, location)` hops in
order — iterated `followHop`. -/
def followHops (request : Request) (hops : List (Nat × Url)) : Request :=
  hops.foldl (fun r p => followHop r p.1 p.2) request

/-- The redirect loop of `request_internal`, with the HTTP transport modelled
as the list of responses it returns to successive sends.  State: the current
outgoing request, the response just received, the hop count and the visited
URL list; each transition mirrors one iteration of the `while` loop in
network.rs (hop-limit check, redirect-with-body check, policy match,
`Location` lookup, `followHop` rewrite, push of the new URL, next send). -/
def followLoop (redirection : Redirection) :
    Request → HyperResponse → Nat → List Url → List HyperResponse →
      Except FetchError Response
  | request, response, redirections, locations, rest =>
    if isRedirection response.status then
      if 20 ≤ redirections then .error .tooManyRedirects
      else if response.status ≠ 303 ∧ request.body ≠ [] then .error .redirectedWithBody
      else
        match redirection with
        | .follow =>
          match response.location with
          | some url =>
            match rest with
            | [] => .error .transport
            | next :: rest2 =>
              followLoop redirection (followHop request response.status url) next
                (redirections + 1) (locations ++ [url]) rest2
          | none => .ok ⟨response, redirections, locations⟩
        | .redirectError => .error .receivedRedirection
        | .manual => .ok ⟨response, redirections, locations⟩
    else .ok ⟨response, redirections, locations⟩

/-- The `request_internal`: clone the caller's request (a pure copy in this
model), send it, seed the visited list with the request URL, and run the
redirect loop over the transport's scripted responses. -/
def request_internal (req : Request) : List HyperResponse → Except FetchError Response
  | [] => .error .transport
  | first :: rest => followLoop req.redirection req first 0 [req.url] rest

/-- The transport responses for a list of `(status, resolved location)`
redirect hops. -/
def redirectResponses (hops : List (Nat × Url)) : List HyperResponse :=
  hops.map (fun p => { status := p.1, location := some p.2 })

/-- One send on the scripted transport followed by the redirect loop: the
shape every iteration of `request_internal` has after its first send. -/
def dispatch (redirection : Redirection) (request : Request) (redirections : Nat)
    (locations : List Url) : List HyperResponse → Except FetchError Response
  | [] => .error .transport
  | r :: rest => followLoop redirection request r redirections locations rest

end Http

namespace Fetch

/-- The `FetchBody`: the byte contents plus the optional body kind used to append
a `Content-Type` header. -/
structure FetchBody where
  bytes : List Nat := []
  kind : Option String := none
  deriving DecidableEq, Repr

/-- Modelled from the spec: `RequestMode` is declared in
`fetch/request/options.rs`, which is not among the provided sources; §3 lists
its variants as `Cors | NoCors | SameOrigin | Navigate`.  The default (used
when neither the init nor the CORS fallback applies) is taken as `cors`; no
claim depends on it. -/
inductive RequestMode
  | cors
  | noCors
  | sameOrigin
  | navigate
  deriving DecidableEq, Repr

/-- Modelled from the spec: `RequestCache` is declared in the absent
options.rs; the constructor only distinguishes `OnlyIfCached` from the rest,
so the model keeps that variant and a default. -/
inductive RequestCache
  | defaultCache
  | onlyIfCached
  deriving DecidableEq, Repr

/-- Modelled from the spec: `RequestRedirect` is declared in the absent
options.rs; §3 gives the redirect policy as `Follow | Error | Manual`. -/
inductive RequestRedirect
  | follow
  | redirectError
  | manual
  deriving DecidableEq, Repr

/-- The script-facing `Request` entity (runtime fetch Request).  Fields that
the constructor and `clone` merely copy through marshaling types that are
external to the provided sources (referrer, referrer policy, credentials,
abort signal) are omitted from the model; no claim mentions them. -/
structure Request where
  request : Http.HyperRequest
  body : FetchBody
  body_used : Bool
  url : Http.Url
  locations : List Http.Url
  mode : RequestMode
  cache : RequestCache
  redirect : RequestRedirect
  integrity : String
  unsafe_request : Bool
  keepalive : Bool
  reload_navigation : Bool
  history_navigation : Bool
  client_window : Bool
  deriving DecidableEq, Repr

/-- Constructor failures (`Error::new(..)` early returns), plus the panic of
`self.locations.last().unwrap()` in `Request::clone` represented as a
distinguished outcome. -/
inductive Err
  | embeddedCredentials
  | nonNullWindow
  | navigateMode
  | invalidMethod
  | onlyIfCachedMode
  | invalidMethodNoCors
  | panicEmptyLocations
  deriving DecidableEq, Repr

/-- The `RequestInfo`: either an existing `Request` or a URL string (already
parsed into a `Url`; `Uri`/`Url` parse failures belong to the external url
crate and are abstracted away). -/
inductive RequestInfo
  | requestInfo (r : Request)
  | stringInfo (url : Http.Url)

/-- The `init` dictionary (`RequestBuilderInit`), restricted to the members
the constructor inspects.  `window` records whether the passed value was
null; `method` is the already-parsed method (ASCII uppercasing and
`Method::from_str` are marshaling). -/
structure RequestBuilderInit where
  method : Option Http.Method := none
  window : Option Bool := none
  mode : Option RequestMode := none
  cache : Option RequestCache := none
  redirect : Option RequestRedirect := none
  integrity : Option String := none
  keepalive : Option Bool := none
  headers : Option Http.Headers := none
  body : Option FetchBody := none

/-- The `Request::clone`: copy the hyper request head via `clone_request`, reset
`url` to the last visited location (`self.locations.last().unwrap()` — a
panic on an empty list, surfaced as `Err.panicEmptyLocations`), seed
`locations` with that single URL, mark the clone unsafe and clear the
navigation flags. -/
def Request.clone (r : Request) : Except Err Request :=
  match r.locations.getLast? with
  | none => .error .panicEmptyLocations
  | some url =>
    .ok { r with
      url := url
      locations := [url]
      unsafe_request := true
      reload_navigation := false
      history_navigation := false }

/-- The fresh `Request` built for a string `RequestInfo`:
`hyper::Request::builder().uri(uri).body(Body::empty())` (hyper's builder
defaults the method to GET and the headers to empty), default body, and
`locations` seeded with the parsed URL. -/
def freshRequest (url : Http.Url) : Request where
  request := { method := .GET, uri := url, headers := [] }
  body := {}
  body_used := false
  url := url
  locations := [url]
  mode := .cors
  cache := .defaultCache
  redirect := .follow
  integrity := ""
  unsafe_request := false
  keepalive := false
  reload_navigation := false
  history_navigation := false
  client_window := true

/-- The `info` resolution at the top of the constructor: an existing request
is cloned (`request.clone()?`); a URL string is checked for embedded
credentials and turned into a fresh request, setting the CORS fallback. -/
def resolveInfo (info : RequestInfo) : Except Err (Bool × Request) :=
  match info with
  | .requestInfo r =>
    match Request.clone r with
    | .error e => .error e
    | .ok c => .ok (false, c)
  | .stringInfo url =>
    if url.username ≠ "" ∨ url.password.isSome then .error Err.embeddedCredentials
    else .ok (true, freshRequest url)

/-- The `init.window` handling: a null window clears `client_window`; a non-null
window is rejected. -/
def stepWindow (request : Request) (window : Option Bool) : Except Err Request :=
  match window with
  | some true => .ok { request with client_window := false }
  | some false => .error Err.nonNullWindow
  | none => .ok request

/-- The unconditional normalisation inside the init branch: a `Navigate` mode
becomes `SameOrigin`, and the navigation flags are cleared. -/
def stepNavigateNormalise (request : Request) : Request :=
  let request :=
    if request.mode = RequestMode.navigate then { request with mode := RequestMode.sameOrigin }
    else request
  { request with reload_navigation := false, history_navigation := false }

/-- The `init.mode.or(fallback_cors.then_some(Cors))`: an explicitly requested
`Navigate` mode is rejected; otherwise the resolved mode (if any) is set. -/
def stepMode (fallback_cors : Bool) (request : Request) (mode : Option RequestMode) :
    Except Err Request :=
  match mode.or (if fallback_cors then some RequestMode.cors else none) with
  | some m =>
    if m = RequestMode.navigate then .error Err.navigateMode
    else .ok { request with mode := m }
  | none => .ok request

/-- The straightforward init members: cache, redirect, integrity,
keepalive — each overrides its field when present. -/
def stepSimpleInits (request : Request) (ini : RequestBuilderInit) : Request :=
  let request :=
    match ini.cache with
    | some c => { request with cache := c }
    | none => request
  let request :=
    match ini.redirect with
    | some rd => { request with redirect := rd }
    | none => request
  let request :=
    match ini.integrity with
    | some s => { request with integrity := s }
    | none => request
  match ini.keepalive with
  | some k => { request with keepalive := k }
  | none => request

/-- The `init`'s method member: CONNECT and TRACE are rejected
(`"Received invalid request method"`); otherwise the method is installed. -/
def stepMethod (request : Request) (method : Option Http.Method) : Except Err Request :=
  match method with
  | some m =>
    if m = Http.Method.CONNECT ∨ m = Http.Method.TRACE then .error Err.invalidMethod
    else .ok { request with request := { request.request with method := m } }
  | none => .ok request

/-- The whole `if let Some(RequestBuilderInit { .. }) = init` block, in source
order: window, navigate normalisation, mode, cache/redirect/integrity/
keepalive, method. -/
def applyInit (fallback_cors : Bool) (request : Request) (ini : RequestBuilderInit) :
    Except Err Request :=
  match stepWindow request ini.window with
  | .error e => .error e
  | .ok request =>
    let request := stepNavigateNormalise request
    match stepMode fallback_cors request ini.mode with
    | .error e => .error e
    | .ok request =>
      let request := stepSimpleInits request ini
      stepMethod request ini.method

/-- The trailing headers replacement: `*request.request.headers_mut() =
headers.into_headers()?.headers` when an init headers member was given. -/
def applyHeaders (request : Request) (headersArg : Option Http.Headers) : Request :=
  match headersArg with
  | some h => { request with request := { request.request with headers := h } }
  | none => request

/-- The trailing body installation: when the body has a kind and the headers
already contain `Content-Type`, the kind is appended as a further
`Content-Type` entry; then the body replaces the request's body. -/
def applyBody (request : Request) (bodyArg : Option FetchBody) : Request :=
  match bodyArg with
  | some b =>
    let request :=
      match b.kind with
      | some kind =>
        if (request.request.headers.map Prod.fst).contains "content-type" then
          { request with request := { request.request with
            headers := request.request.headers ++ [("content-type", kind)] } }
        else request
      | none => request
    { request with body := b }
  | none => request

/-- The `Request::constructor`, step for step: resolve the info, apply the init
dictionary, then the only-if-cached/same-origin check, the `NoCors`
method-allow-list check exactly as written in the source
(`method != GET || method != HEAD || method != POST`, reached only when the
mode is `NoCors` — the source's nested `if` is the conjunction below), and
finally the headers and body members. -/
def constructor (info : RequestInfo) (init : Option RequestBuilderInit) :
    Except Err Request :=
  match resolveInfo info with
  | .error e => .error e
  | .ok (fallback_cors, start) =>
    match
      match init with
      | some ini => applyInit fallback_cors start ini
      | none => .ok start
    with
    | .error e => .error e
    | .ok request =>
      if request.cache = RequestCache.onlyIfCached ∧ request.mode ≠ RequestMode.sameOrigin then
        .error Err.onlyIfCachedMode
      else if request.mode = RequestMode.noCors ∧
          (request.request.method ≠ Http.Method.GET ∨ request.request.method ≠ Http.Method.HEAD
            ∨ request.request.method ≠ Http.Method.POST) then
        .error Err.invalidMethodNoCors
      else
        let request := applyHeaders request (init.bind RequestBuilderInit.headers)
        let request := applyBody request (init.bind RequestBuilderInit.body)
        .ok request

/-- The requests reachable through the public API: produced by the
constructor (possibly from another reachable request) or by `clone` of a
reachable request. -/
inductive Reachable : Request → Prop
  | ofCtorString (url : Http.Url) (init : Option RequestBuilderInit) (r : Request) :
      constructor (.stringInfo url) init = .ok r → Reachable r
  | ofCtorRequest (src : Request) (init : Option RequestBuilderInit) (r : Request) :
      Reachable src → constructor (.requestInfo src) init = .ok r → Reachable r
  | ofClone (src : Request) (r : Request) :
      Reachable src → Request.clone src = .ok r → Reachable r

end Fetch

/-! Concrete values used by the witness and counterexample theorems below. -/

def exUrl : Http.Url := { toStr := "http://origin.test/", host := "origin.test" }

def exUrl2 : Http.Url := { toStr := "http://next.test/", host := "next.test" }

def exReq : Http.Request :=
  { request := { method := .GET, uri := exUrl, headers := [] }
    body := []
    url := exUrl
    redirection := .follow }

def exPostReq : Http.Request :=
  { request := { method := .POST, uri := exUrl, headers := [("content-type", "text/plain")] }
    body := []
    url := exUrl
    redirection := .follow }

def exPostBodyErrReq : Http.Request :=
  { request := { method := .POST, uri := exUrl, headers := [] }
    body := [1]
    url := exUrl
    redirection := .redirectError }


namespace Http

lemma request_internal_eq_dispatch (req : Request) (responses : List HyperResponse) :
    request_internal req responses = dispatch req.redirection req 0 [req.url] responses := by
  cases responses <;> rfl

lemma followHop_body_empty (request : Request) (s : Nat) (u : Url)
    (h : request.body = []) : (followHop request s u).body = [] := by
  simp only [followHop]
  split <;> simp [h]

lemma followHop_uri (request : Request) (s : Nat) (u : Url) :
    (followHop request s u).request.uri = u := by
  simp only [followHop]

/-- Saturating one redirect under `Follow`: with a valid location, below the
hop limit and with an empty (or 303-permitted) body, the loop rewrites the
request, appends the location and re-sends. -/
lemma followLoop_step (request : Request) (s : Nat) (u : Url) (n : Nat)
    (locs : List Url) (rest : List HyperResponse)
    (hs : isRedirection s = true) (hn : n < 20) (hbody : s = 303 ∨ request.body = []) :
    followLoop .follow request ⟨s, some u⟩ n locs rest =
      dispatch .follow (followHop request s u) (n + 1) (locs ++ [u]) rest := by
  rw [followLoop]
  have h20 : ¬(20 ≤ n) := Nat.not_le.mpr hn
  have hbc : ¬(s ≠ 303 ∧ request.body ≠ []) := by
    rcases hbody with h | h <;> simp [h]
  simp only [hs, if_true, h20, if_false, hbc]
  cases rest <;> rfl

lemma dispatch_terminal (request : Request) (redirection : Redirection) (n : Nat)
    (locs : List Url) (final : HyperResponse) (rest : List HyperResponse)
    (hfin : isRedirection final.status = false) :
    dispatch redirection request n locs (final :: rest) = .ok ⟨final, n, locs⟩ := by
  simp only [dispatch]
  rw [followLoop.eq_def]
  simp [hfin]

/-- Running the loop through a list of followable redirects to a non-redirect
terminal response: the visited list is extended by the hop locations in
order, and the hop count by their number. -/
lemma dispatch_redirects (hops : List (Nat × Url)) :
    ∀ (request : Request) (n : Nat) (locs : List Url) (final : HyperResponse)
      (rest : List HyperResponse),
      request.body = [] →
      (∀ p ∈ hops, isRedirection p.1 = true) →
      n + hops.length ≤ 20 →
      isRedirection final.status = false →
      dispatch .follow request n locs (redirectResponses hops ++ final :: rest) =
        .ok ⟨final, n + hops.length, locs ++ hops.map Prod.snd⟩ := by
  induction hops with
  | nil =>
    intro request n locs final rest _ _ _ hfin
    simpa [redirectResponses] using dispatch_terminal request .follow n locs final rest hfin
  | cons p hops ih =>
    intro request n locs final rest hb hred hn hfin
    obtain ⟨s, u⟩ := p
    have hs : isRedirection s = true := hred (s, u) (List.mem_cons_self _ _)
    have hn' : n < 20 := by
      simp only [List.length_cons] at hn
      omega
    simp only [redirectResponses, List.map_cons, List.cons_append, dispatch]
    rw [followLoop_step request s u n locs _ hs hn' (Or.inr hb)]
    have := ih (followHop request s u) (n + 1) (locs ++ [u]) final rest
      (followHop_body_empty request s u hb)
      (fun q hq => hred q (List.mem_cons_of_mem _ hq))
      (by simp only [List.length_cons] at hn ⊢; omega) hfin
    rw [show redirectResponses hops = hops.map
        (fun p => ({ status := p.1, location := some p.2 } : HyperResponse)) from rfl] at this
    rw [this]
    have h1 : n + 1 + hops.length = n + ((s, u) :: hops).length := by
      simp only [List.length_cons]
      omega
    have h2 : (locs ++ [u]) ++ hops.map Prod.snd = locs ++ ((s, u) :: hops).map Prod.snd := by
      simp
    rw [h1, h2]
    simp

/-- Running the loop through redirects up to the hop limit and then one more
redirect: the `Too Many Redirects` terminal error. -/
lemma dispatch_limit (hops : List (Nat × Url)) :
    ∀ (request : Request) (n : Nat) (locs : List Url) (extra : HyperResponse)
      (rest : List HyperResponse),
      request.body = [] →
      (∀ p ∈ hops, isRedirection p.1 = true) →
      n + hops.length = 20 →
      isRedirection extra.status = true →
      dispatch .follow request n locs (redirectResponses hops ++ extra :: rest) =
        .error .tooManyRedirects := by
  induction hops with
  | nil =>
    intro request n locs extra rest _ _ hn hext
    simp only [List.length_nil, Nat.add_zero] at hn
    subst hn
    simp only [redirectResponses, List.map_nil, List.nil_append, dispatch]
    rw [followLoop]
    simp [hext]
  | cons p hops ih =>
    intro request n locs extra rest hb hred hn hext
    obtain ⟨s, u⟩ := p
    have hs : isRedirection s = true := hred (s, u) (List.mem_cons_self _ _)
    have hn' : n < 20 := by
      simp only [List.length_cons] at hn
      omega
    simp only [redirectResponses, List.map_cons, List.cons_append, dispatch]
    rw [followLoop_step request s u n locs _ hs hn' (Or.inr hb)]
    exact ih (followHop request s u) (n + 1) (locs ++ [u]) extra rest
      (followHop_body_empty request s u hb)
      (fun q hq => hred q (List.mem_cons_of_mem _ hq))
      (by simp only [List.length_cons] at hn ⊢; omega) hext

lemma followHops_uri (hops : List (Nat × Url)) :
    ∀ request : Request,
      (followHops request hops).request.uri = (hops.map Prod.snd).getLastD request.request.uri := by
  induction hops with
  | nil => intro request; rfl
  | cons p hops ih =>
    intro request
    obtain ⟨s, u⟩ := p
    simp only [followHops, List.foldl_cons, List.map_cons, List.getLastD_cons]
    rw [show List.foldl (fun r q => followHop r q.1 q.2) (followHop request s u) hops =
      followHops (followHop request s u) hops from rfl]
    rw [ih (followHop request s u), followHop_uri]

end Http

namespace Http

lemma mem_removeHeader {p : String × String} {headers : Headers} {name : String} :
    p ∈ removeHeader headers name ↔ p ∈ headers ∧ p.1 ≠ name := by
  simp [removeHeader, List.mem_filter]

lemma redirectResponses_append (a b : List (Nat × Url)) :
    redirectResponses (a ++ b) = redirectResponses a ++ redirectResponses b := by
  simp [redirectResponses]

end Http


/-! ## The claims -/

/-- C9: a signal created via the static `abort(reason)` operation is
immediately settled: `get_aborted` is true, `get_reason` returns the reason,
and the very first `poll` of its wait future returns the reason (never
`Pending`), whatever the state of any broadcast cell. -/
theorem c9_static_abort_immediately_settled (reason : Abort.JSVal)
    (cell : Option Abort.JSVal) :
    Abort.AbortSignal.get_aborted (Abort.AbortSignal.abort (some reason)) cell = true ∧
    Abort.AbortSignal.get_reason (Abort.AbortSignal.abort (some reason)) cell = some reason ∧
    Abort.SignalFuture.poll (Abort.AbortSignal.abort (some reason)) cell = .ready reason :=
  ⟨rfl, rfl, rfl⟩

/-- C8: a timeout signal whose future is dropped while the broadcast cell has
not fired sets the termination flag, and the scheduled callback then runs as
a no-op: the state is unchanged and no reason is ever broadcast to the
cell. -/
theorem c8_dropped_timer_never_broadcasts (time : Nat) (st : Abort.TimeoutState)
    (hpending : st.cell = none) :
    (Abort.dropTimeoutHandle st).terminate = true ∧
    Abort.runSignalMacrotask time (Abort.dropTimeoutHandle st) = Abort.dropTimeoutHandle st ∧
    (Abort.runSignalMacrotask time (Abort.dropTimeoutHandle st)).cell = none := by
  refine ⟨?_, ?_, ?_⟩ <;>
    simp [Abort.dropTimeoutHandle, Abort.SignalFuture.drop, Abort.runSignalMacrotask, hpending]

/-- Witness for C8 at the state freshly created by `AbortSignal::timeout`
(cell empty, flag clear), with a 100ms duration. -/
theorem c8_dropped_timer_never_broadcasts_witness :
    (Abort.dropTimeoutHandle Abort.AbortSignal.timeoutInit).terminate = true ∧
    Abort.runSignalMacrotask 100 (Abort.dropTimeoutHandle Abort.AbortSignal.timeoutInit) =
      Abort.dropTimeoutHandle Abort.AbortSignal.timeoutInit ∧
    (Abort.runSignalMacrotask 100 (Abort.dropTimeoutHandle Abort.AbortSignal.timeoutInit)).cell =
      none :=
  c8_dropped_timer_never_broadcasts 100 Abort.AbortSignal.timeoutInit rfl

/-- C3 fails on the code: `AbortController::abort` uses `send_replace`, which
stores unconditionally.  After `abort(val 1)` the cell holds `val 1`; a
second `abort(val 2)` is not a no-op — it overwrites the cell, and a signal
subscribed to the controller's broadcast cell then observes `val 2`, not the
first reason. -/
theorem c3_second_abort_overwrites_first_reason :
    Abort.AbortController.abort none (some (.val 1)) = some (.val 1) ∧
    Abort.AbortController.abort (Abort.AbortController.abort none (some (.val 1)))
      (some (.val 2)) = some (.val 2) ∧
    Abort.AbortSignal.get_reason .receiver
      (Abort.AbortController.abort (Abort.AbortController.abort none (some (.val 1)))
        (some (.val 2))) = some (.val 2) ∧
    some (Abort.JSVal.val 2) ≠ some (Abort.JSVal.val 1) :=
  ⟨rfl, rfl, rfl, by decide⟩

/-- C4 as stated is false: the `NoCors` method-allow-list check rejects the
request even for method GET (the source's default when no method is given) —
construction with mode `NoCors` does fail with the invalid-request-method
error. -/
theorem c4_counterexample_nocors_rejects_get :
    Fetch.constructor (.stringInfo exUrl) (some { mode := some .noCors }) =
      .error .invalidMethodNoCors := rfl

/-- C4 amended: the condition `method != GET || method != HEAD ||
method != POST` is a tautology, so for every request constructed with mode
`NoCors` the method-allow-list check always rejects: construction fails with
the invalid-request-method error for every method (CONNECT and TRACE are
already rejected by the earlier method check). -/
theorem c4_nocors_always_rejects (m : Http.Method) (url : Http.Url)
    (hc : m ≠ .CONNECT) (ht : m ≠ .TRACE)
    (hu : url.username = "") (hp : url.password = none) :
    (m ≠ .GET ∨ m ≠ .HEAD ∨ m ≠ .POST) ∧
    Fetch.constructor (.stringInfo url)
      (some { mode := some .noCors, method := some m }) = .error .invalidMethodNoCors := by
  have htaut : m ≠ Http.Method.GET ∨ m ≠ Http.Method.HEAD ∨ m ≠ Http.Method.POST := by
    cases m <;> simp
  refine ⟨htaut, ?_⟩
  simp [Fetch.constructor, Fetch.resolveInfo, hu, hp, Fetch.applyInit, Fetch.stepWindow,
    Fetch.stepNavigateNormalise, Fetch.stepMode, Fetch.stepSimpleInits, Fetch.stepMethod,
    Fetch.freshRequest, hc, ht, htaut]

/-- Witness for C4's amended theorem at method POST. -/
theorem c4_nocors_always_rejects_witness :
    (Http.Method.POST ≠ .GET ∨ Http.Method.POST ≠ .HEAD ∨ Http.Method.POST ≠ .POST) ∧
    Fetch.constructor (.stringInfo exUrl)
      (some { mode := some .noCors, method := some .POST }) = .error .invalidMethodNoCors :=
  c4_nocors_always_rejects .POST exUrl (by decide) (by decide) rfl rfl

/-- C1: under policy `Follow` with an empty body, a scripted transport that
answers with 21 consecutive redirection responses (each with a valid
`Location`) makes the dispatcher fail with `Too Many Redirects`; 20
redirection responses followed by a 200 yield a success whose `locations`
list — the original URL followed by the 20 hop locations — has length 21. -/
theorem c1_redirect_hop_limit :
    (∀ (req : Http.Request) (hops : List (Nat × Http.Url)),
      req.redirection = .follow → req.body = [] →
      hops.length = 21 →
      (∀ p ∈ hops, Http.isRedirection p.1 = true) →
      Http.request_internal req (Http.redirectResponses hops) = .error .tooManyRedirects) ∧
    (∀ (req : Http.Request) (hops : List (Nat × Http.Url)) (final : Http.HyperResponse),
      req.redirection = .follow → req.body = [] →
      hops.length = 20 →
      (∀ p ∈ hops, Http.isRedirection p.1 = true) →
      final.status = 200 →
      Http.request_internal req (Http.redirectResponses hops ++ [final]) =
        .ok ⟨final, 20, req.url :: hops.map Prod.snd⟩ ∧
      (req.url :: hops.map Prod.snd).length = 21) := by
  constructor
  · intro req hops hpol hbody hlen hred
    rw [Http.request_internal_eq_dispatch, hpol]
    have hne : hops ≠ [] := by
      intro h
      rw [h] at hlen
      simp at hlen
    rw [← List.dropLast_append_getLast hne, Http.redirectResponses_append]
    have hll : (hops.dropLast).length = 20 := by
      rw [List.length_dropLast, hlen]
    exact Http.dispatch_limit hops.dropLast req 0 [req.url]
      ⟨(hops.getLast hne).1, some (hops.getLast hne).2⟩ [] hbody
      (fun q hq => hred q (List.dropLast_subset _ hq))
      (by rw [hll])
      (hred (hops.getLast hne) (List.getLast_mem hne))
  · intro req hops final hpol hbody hlen hred h200
    constructor
    · rw [Http.request_internal_eq_dispatch, hpol]
      have h := Http.dispatch_redirects hops req 0 [req.url] final [] hbody hred
        (by rw [hlen]) (by simp [Http.isRedirection, h200])
      rw [h, hlen]
      simp
    · simp [hlen]

/-- Witness for C1: a GET request with 21 scripted 301 redirects errors with
`Too Many Redirects`; with 20 scripted 301 redirects and then a 200 it
succeeds with 21 visited locations. -/
theorem c1_redirect_hop_limit_witness :
    Http.request_internal exReq
      (Http.redirectResponses (List.replicate 21 (301, exUrl2))) =
        .error .tooManyRedirects ∧
    Http.request_internal exReq
      (Http.redirectResponses (List.replicate 20 (301, exUrl2)) ++ [⟨200, none⟩]) =
      .ok ⟨⟨200, none⟩, 20, exReq.url :: (List.replicate 20 (301, exUrl2)).map Prod.snd⟩ ∧
    (exReq.url :: (List.replicate 20 (301, exUrl2)).map Prod.snd).length = 21 := by
  refine ⟨?_, ?_⟩
  · exact c1_redirect_hop_limit.1 exReq (List.replicate 21 (301, exUrl2)) rfl rfl
      (by simp)
      (fun p hp => by rw [List.eq_of_mem_replicate hp]; decide)
  · exact c1_redirect_hop_limit.2 exReq (List.replicate 20 (301, exUrl2)) ⟨200, none⟩ rfl rfl
      (by simp)
      (fun p hp => by rw [List.eq_of_mem_replicate hp]; decide)
      rfl

/-- C2: under policy `Follow` with an empty body, after fewer than 20
followable redirect hops ending in a non-redirect response, the dispatcher
succeeds; its `locations` list is the original request URL followed by the
hop locations in hop order (hence length hops+1 and first entry the original
URL), and its last entry is the URI of the final outgoing request. -/
theorem c2_follow_visited_locations (req : Http.Request) (hops : List (Nat × Http.Url))
    (final : Http.HyperResponse)
    (hpol : req.redirection = .follow) (hbody : req.body = [])
    (huri : req.request.uri = req.url)
    (hlen : hops.length < 20)
    (hred : ∀ p ∈ hops, Http.isRedirection p.1 = true)
    (hfin : Http.isRedirection final.status = false) :
    Http.request_internal req (Http.redirectResponses hops ++ [final]) =
      .ok ⟨final, hops.length, req.url :: hops.map Prod.snd⟩ ∧
    (req.url :: hops.map Prod.snd).length = hops.length + 1 ∧
    (req.url :: hops.map Prod.snd).getLast? =
      some ((Http.followHops req hops).request.uri) := by
  refine ⟨?_, by simp, ?_⟩
  · rw [Http.request_internal_eq_dispatch, hpol]
    have h := Http.dispatch_redirects hops req 0 [req.url] final [] hbody hred
      (by omega) hfin
    rw [h]
    simp
  · rw [Http.followHops_uri, huri]
    simp [List.getLast?_cons, List.getLastD_eq_getLast?]

/-- Witness for C2: a single 301 hop followed by a 200. -/
theorem c2_follow_visited_locations_witness :
    Http.request_internal exReq (Http.redirectResponses [(301, exUrl2)] ++ [⟨200, none⟩]) =
      .ok ⟨⟨200, none⟩, 1, exReq.url :: [(301, exUrl2)].map Prod.snd⟩ ∧
    (exReq.url :: [(301, exUrl2)].map Prod.snd).length = 1 + 1 ∧
    (exReq.url :: [(301, exUrl2)].map Prod.snd).getLast? =
      some ((Http.followHops exReq [(301, exUrl2)]).request.uri) :=
  c2_follow_visited_locations exReq [(301, exUrl2)] ⟨200, none⟩ rfl rfl rfl
    (by decide) (fun p hp => by rw [List.mem_singleton.mp hp]; decide) rfl

/-- C5: a 307 (or 308) redirect never rewrites the request: the hop
transformation preserves the method and the body; and for a POST request
with policy `Follow` whose first response is such a redirect, the dispatcher
proceeds to the next hop carrying exactly that preserved request. -/
theorem c5_307_preserves_method_and_body (request : Http.Request) (s : Nat) (u : Http.Url)
    (hs : s = 307 ∨ s = 308) :
    (Http.followHop request s u).request.method = request.request.method ∧
    (Http.followHop request s u).body = request.body ∧
    (request.redirection = .follow → request.body = [] →
      request.request.method = .POST →
      ∀ (next : Http.HyperResponse) (rest : List Http.HyperResponse),
        Http.request_internal request (⟨s, some u⟩ :: next :: rest) =
          Http.followLoop .follow (Http.followHop request s u) next 1 [request.url, u] rest) := by
  have hcond : ¬(((s = 301 ∨ s = 302) ∧ request.request.method = .POST) ∨
      (s = 303 ∧ (request.request.method ≠ .GET ∧ request.request.method ≠ .HEAD))) := by
    rcases hs with rfl | rfl <;> simp
  refine ⟨?_, ?_, ?_⟩
  · simp [Http.followHop, hcond]
  · simp [Http.followHop, hcond]
  · intro hpol hbody _ next rest
    rw [Http.request_internal_eq_dispatch, hpol]
    show Http.dispatch .follow request 0 [request.url] (⟨s, some u⟩ :: next :: rest) = _
    simp only [Http.dispatch]
    rw [Http.followLoop_step request s u 0 [request.url] (next :: rest)
      (by rcases hs with rfl | rfl <;> rfl) (by omega) (Or.inr hbody)]
    rfl

/-- Witness for C5: a POST request (empty body) redirected by a 307. -/
theorem c5_307_preserves_method_and_body_witness :
    (Http.followHop exPostReq 307 exUrl2).request.method = exPostReq.request.method ∧
    (Http.followHop exPostReq 307 exUrl2).body = exPostReq.body ∧
    (exPostReq.redirection = .follow → exPostReq.body = [] →
      exPostReq.request.method = .POST →
      ∀ (next : Http.HyperResponse) (rest : List Http.HyperResponse),
        Http.request_internal exPostReq (⟨307, some exUrl2⟩ :: next :: rest) =
          Http.followLoop .follow (Http.followHop exPostReq 307 exUrl2) next 1
            [exPostReq.url, exUrl2] rest) :=
  c5_307_preserves_method_and_body exPostReq 307 exUrl2 (Or.inl rfl)

/-- C6: a 302 redirect of a POST request downgrades the hop request: method
becomes GET, the body is dropped, and none of the `Content-Type`,
`Content-Encoding`, `Content-Language`, `Content-Location` headers survive;
under policy `Follow` with an empty body the dispatcher proceeds to the next
hop carrying exactly that downgraded request. -/
theorem c6_302_post_downgrades (request : Http.Request) (u : Http.Url)
    (hm : request.request.method = .POST) :
    (Http.followHop request 302 u).request.method = .GET ∧
    (Http.followHop request 302 u).body = [] ∧
    (∀ v : String,
      ("content-type", v) ∉ (Http.followHop request 302 u).request.headers ∧
      ("content-encoding", v) ∉ (Http.followHop request 302 u).request.headers ∧
      ("content-language", v) ∉ (Http.followHop request 302 u).request.headers ∧
      ("content-location", v) ∉ (Http.followHop request 302 u).request.headers) ∧
    (request.redirection = .follow → request.body = [] →
      ∀ (next : Http.HyperResponse) (rest : List Http.HyperResponse),
        Http.request_internal request (⟨302, some u⟩ :: next :: rest) =
          Http.followLoop .follow (Http.followHop request 302 u) next 1 [request.url, u] rest) := by
  have hcond : ((302 = 301 ∨ 302 = 302) ∧ request.request.method = .POST) ∨
      ((302 : Nat) = 303 ∧ (request.request.method ≠ .GET ∧ request.request.method ≠ .HEAD)) :=
    Or.inl ⟨Or.inr rfl, hm⟩
  refine ⟨?_, ?_, ?_, ?_⟩
  · simp [Http.followHop, hcond, hm]
  · simp [Http.followHop, hcond, hm]
  · intro v
    refine ⟨?_, ?_, ?_, ?_⟩ <;>
      simp [Http.followHop, hcond, hm, Http.add_host_header, Http.mem_removeHeader]
  · intro hpol hbody next rest
    rw [Http.request_internal_eq_dispatch, hpol]
    show Http.dispatch .follow request 0 [request.url] (⟨302, some u⟩ :: next :: rest) = _
    simp only [Http.dispatch]
    rw [Http.followLoop_step request 302 u 0 [request.url] (next :: rest) rfl (by omega)
      (Or.inr hbody)]
    rfl

/-- Witness for C6: the POST example request redirected by a 302. -/
theorem c6_302_post_downgrades_witness :
    (Http.followHop exPostReq 302 exUrl2).request.method = .GET ∧
    (Http.followHop exPostReq 302 exUrl2).body = [] ∧
    (∀ v : String,
      ("content-type", v) ∉ (Http.followHop exPostReq 302 exUrl2).request.headers ∧
      ("content-encoding", v) ∉ (Http.followHop exPostReq 302 exUrl2).request.headers ∧
      ("content-language", v) ∉ (Http.followHop exPostReq 302 exUrl2).request.headers ∧
      ("content-location", v) ∉ (Http.followHop exPostReq 302 exUrl2).request.headers) ∧
    (exPostReq.redirection = .follow → exPostReq.body = [] →
      ∀ (next : Http.HyperResponse) (rest : List Http.HyperResponse),
        Http.request_internal exPostReq (⟨302, some exUrl2⟩ :: next :: rest) =
          Http.followLoop .follow (Http.followHop exPostReq 302 exUrl2) next 1
            [exPostReq.url, exUrl2] rest) :=
  c6_302_post_downgrades exPostReq exUrl2 rfl

/-- C7 fails as stated: with policy `Error`, a request carrying a non-empty
body that receives a 301 fails with the redirected-with-a-body error — not
with the redirect-policy-violation error the claim promises for every
body. -/
theorem c7_counterexample_body_error_first :
    Http.request_internal exPostBodyErrReq [⟨301, some exUrl2⟩] =
      .error .redirectedWithBody ∧
    Http.FetchError.redirectedWithBody ≠ .receivedRedirection :=
  ⟨rfl, by decide⟩

/-- C7 amended: with policy `Error`, any redirection status (301, 302, 303,
307, 308) on the first attempt yields an error, never a success: the
redirect-policy-violation error (`Received Redirection`) when the body is
empty or the status is 303, and the redirected-with-a-body error
otherwise. -/
theorem c7_error_policy_always_errors (req : Http.Request) (s : Nat)
    (loc : Option Http.Url) (rest : List Http.HyperResponse)
    (hpol : req.redirection = .redirectError)
    (hs : s = 301 ∨ s = 302 ∨ s = 303 ∨ s = 307 ∨ s = 308) :
    Http.request_internal req (⟨s, loc⟩ :: rest) =
      .error (if s ≠ 303 ∧ req.body ≠ [] then .redirectedWithBody
              else .receivedRedirection) := by
  rw [Http.request_internal_eq_dispatch, hpol]
  simp only [Http.dispatch]
  rw [Http.followLoop.eq_def]
  have hred : Http.isRedirection s = true := by
    rcases hs with rfl | rfl | rfl | rfl | rfl <;> rfl
  simp only [hred, if_true]
  norm_num
  split <;> simp

/-- Witness for C7's amended theorem: policy `Error`, non-empty body, 301. -/
theorem c7_error_policy_always_errors_witness :
    Http.request_internal exPostBodyErrReq [⟨301, some exUrl2⟩] =
      .error (if (301 : Nat) ≠ 303 ∧ exPostBodyErrReq.body ≠ [] then .redirectedWithBody
              else .receivedRedirection) :=
  c7_error_policy_always_errors exPostBodyErrReq 301 (some exUrl2) [] rfl (Or.inl rfl)

namespace Fetch

lemma clone_locations (src c : Request) (h : Request.clone src = .ok c) :
    ∃ u, c.locations = [u] := by
  unfold Request.clone at h
  cases hgl : src.locations.getLast? with
  | none => rw [hgl] at h; simp at h
  | some u =>
    rw [hgl] at h
    injection h with h2
    exact ⟨u, by rw [← h2]⟩

lemma resolveInfo_locations (info : RequestInfo) (fc : Bool) (s : Request)
    (h : resolveInfo info = .ok (fc, s)) : ∃ u, s.locations = [u] := by
  cases info with
  | requestInfo r =>
    unfold resolveInfo at h
    simp only at h
    cases hc : Request.clone r with
    | error e => rw [hc] at h; simp at h
    | ok c =>
      rw [hc] at h
      simp only at h
      injection h with h2
      obtain ⟨-, hs⟩ := Prod.mk.inj h2
      subst hs
      exact clone_locations r c hc
  | stringInfo url =>
    unfold resolveInfo at h
    simp only at h
    split at h
    · simp at h
    · injection h with h2
      obtain ⟨-, hs⟩ := Prod.mk.inj h2
      subst hs
      exact ⟨url, rfl⟩

lemma stepWindow_locations (r : Request) (w : Option Bool) (r' : Request)
    (h : stepWindow r w = .ok r') : r'.locations = r.locations := by
  unfold stepWindow at h
  cases w with
  | none => injection h with h2; rw [← h2]
  | some b =>
    cases b with
    | true => injection h with h2; rw [← h2]
    | false => simp at h

lemma stepNavigateNormalise_locations (r : Request) :
    (stepNavigateNormalise r).locations = r.locations := by
  simp only [stepNavigateNormalise]
  split <;> rfl

lemma stepMode_locations (fc : Bool) (r : Request) (m : Option RequestMode) (r' : Request)
    (h : stepMode fc r m = .ok r') : r'.locations = r.locations := by
  unfold stepMode at h
  split at h
  · split at h
    · simp at h
    · injection h with h2; rw [← h2]
  · injection h with h2; rw [← h2]

lemma stepSimpleInits_locations (r : Request) (ini : RequestBuilderInit) :
    (stepSimpleInits r ini).locations = r.locations := by
  cases hc : ini.cache <;> cases hr : ini.redirect <;> cases hi : ini.integrity <;>
    cases hk : ini.keepalive <;> simp [stepSimpleInits, hc, hr, hi, hk]

lemma stepMethod_locations (r : Request) (m : Option Http.Method) (r' : Request)
    (h : stepMethod r m = .ok r') : r'.locations = r.locations := by
  unfold stepMethod at h
  split at h
  · split at h
    · simp at h
    · injection h with h2; rw [← h2]
  · injection h with h2; rw [← h2]

lemma applyInit_locations (fc : Bool) (r : Request) (ini : RequestBuilderInit) (r' : Request)
    (h : applyInit fc r ini = .ok r') : r'.locations = r.locations := by
  unfold applyInit at h
  cases hw : stepWindow r ini.window with
  | error e => rw [hw] at h; simp at h
  | ok r1 =>
    rw [hw] at h
    cases hm : stepMode fc (stepNavigateNormalise r1) ini.mode with
    | error e => simp only [hm] at h; simp at h
    | ok r2 =>
      simp only [hm] at h
      rw [stepMethod_locations _ _ _ h, stepSimpleInits_locations,
        stepMode_locations fc _ _ _ hm, stepNavigateNormalise_locations,
        stepWindow_locations r _ _ hw]

lemma applyHeaders_locations (r : Request) (a : Option Http.Headers) :
    (applyHeaders r a).locations = r.locations := by
  cases a <;> rfl

lemma applyBody_locations (r : Request) (a : Option FetchBody) :
    (applyBody r a).locations = r.locations := by
  cases a with
  | none => rfl
  | some b =>
    simp only [applyBody]
    split
    · split <;> rfl
    · rfl

lemma constructor_locations (info : RequestInfo) (init : Option RequestBuilderInit)
    (r : Request) (h : constructor info init = .ok r) : ∃ u, r.locations = [u] := by
  unfold constructor at h
  cases hres : resolveInfo info with
  | error e => rw [hres] at h; simp at h
  | ok pair =>
    obtain ⟨fc, start⟩ := pair
    rw [hres] at h
    simp only at h
    cases hai : (match init with
      | some ini => applyInit fc start ini
      | none => Except.ok start) with
    | error e => rw [hai] at h; simp at h
    | ok req1 =>
      rw [hai] at h
      simp only at h
      have hl1 : req1.locations = start.locations := by
        cases init with
        | some ini => exact applyInit_locations fc start ini req1 hai
        | none => injection hai with h2; rw [h2]
      split at h
      · simp at h
      · split at h
        · simp at h
        · injection h with h2
          obtain ⟨u, hu⟩ := resolveInfo_locations info fc start hres
          refine ⟨u, ?_⟩
          rw [← h2, applyBody_locations, applyHeaders_locations, hl1, hu]

end Fetch

/-- C10: every `Request` produced by the public constructor or by `clone` has
a non-empty `locations` list (the constructor seeds it with the target URL,
`clone` resets it to the single last-visited URL), so `clone`'s
`locations.last().unwrap()` never panics on a reachable request. -/
theorem c10_reachable_clone_never_panics (r : Fetch.Request) (h : Fetch.Reachable r) :
    r.locations ≠ [] ∧ ∃ c, Fetch.Request.clone r = .ok c := by
  have hsing : ∃ u, r.locations = [u] := by
    induction h with
    | ofCtorString url init r hc => exact Fetch.constructor_locations _ _ _ hc
    | ofCtorRequest src init r hsrc hc ih => exact Fetch.constructor_locations _ _ _ hc
    | ofClone src r hsrc hc ih => exact Fetch.clone_locations _ _ hc
  obtain ⟨u, hu⟩ := hsing
  constructor
  · simp [hu]
  · have hc : Fetch.Request.clone r = .ok { r with url := u, locations := [u], unsafe_request := true, reload_navigation := false, history_navigation := false } := by
      unfold Fetch.Request.clone
      rw [hu]
      rfl
    exact ⟨_, hc⟩

/-- Witness for C10: the request built by the constructor from a plain URL
string with no init. -/
theorem c10_reachable_clone_never_panics_witness :
    (Fetch.freshRequest exUrl).locations ≠ [] ∧
    ∃ c, Fetch.Request.clone (Fetch.freshRequest exUrl) = .ok c :=
  c10_reachable_clone_never_panics (Fetch.freshRequest exUrl)
    (Fetch.Reachable.ofCtorString exUrl none _ rfl)
